import Mathlib

/-!
# Verification of the go-ds-sql SQL-backed datastore

A shallow embedding of the `sqlds` package (core datastore in the repository
README source block), its postgres and sqlite dialect providers, and the
batch/transaction manager, together with theorems settling the frozen claims.

The SQL table is modelled as an association list of `(key, value)` rows, the
SQL executor as pure functions over it, and executor failures are injected
explicitly as `Option String` arguments (the error the driver would return,
or `none` when the statement succeeds).
-/

set_option autoImplicit false

namespace SqlDs

/-- Opaque value bytes, as stored in the `data` column. -/
abbrev Bytes := List Nat

/-- One SQL table of `(key TEXT PRIMARY KEY, data BLOB)` rows, in physical
row order. -/
abbrev Table := List (String × Bytes)

/-- `SELECT data FROM tbl WHERE key = k`: the first row whose key matches. -/
def tblLookup (tbl : Table) (k : String) : Option Bytes :=
  match tbl with
  | [] => none
  | (k2, v) :: rest => if k2 = k then some v else tblLookup rest k

/-- Number of rows whose key is `k` (the `RowsAffected` count of
`DELETE FROM tbl WHERE key = k`). -/
def tblCount (tbl : Table) (k : String) : Nat :=
  (tbl.filter (fun r => r.1 = k)).length

/-- `DELETE FROM tbl WHERE key = k`: remove every matching row. -/
def tblRemove (tbl : Table) (k : String) : Table :=
  tbl.filter (fun r => r.1 ≠ k)

/-- Postgres upsert `INSERT ... ON CONFLICT (key) DO UPDATE SET data = $2`:
update the conflicting row in place, otherwise append a fresh row. -/
def upsertPg (tbl : Table) (k : String) (v : Bytes) : Table :=
  if (tblLookup tbl k).isSome then
    tbl.map (fun r => if r.1 = k then (k, v) else r)
  else
    tbl ++ [(k, v)]

/-- SQLite `INSERT OR REPLACE INTO tbl(key, data) VALUES($1, $2)`: delete any
conflicting row and insert the new one. -/
def upsertReplace (tbl : Table) (k : String) (v : Bytes) : Table :=
  tblRemove tbl k ++ [(k, v)]

/-- Datastore-level errors surfaced to callers: `ds.ErrNotFound` or a verbatim
executor error. -/
inductive DsError where
  | notFound
  | other (msg : String)
  deriving DecidableEq, Repr

/-- `Datastore.Get`: run the get statement; `sql.ErrNoRows` becomes
`ds.ErrNotFound`, any other executor error propagates unchanged.
`execErr` injects the executor/scan error, `none` when the round trip
succeeds. -/
def dsGet (tbl : Table) (k : String) (execErr : Option String) :
    Except DsError Bytes :=
  match execErr with
  | some e => .error (.other e)
  | none =>
    match tblLookup tbl k with
    | none => .error .notFound
    | some v => .ok v

/-- `Datastore.Has`: run the exists statement, which by construction returns
one boolean row (`select exists(select 1 from tbl where key=$1)`); a no-rows
condition would yield the zero value `false` with no error; other executor
errors propagate unchanged. -/
def dsHas (tbl : Table) (k : String) (execErr : Option String) :
    Except DsError Bool :=
  match execErr with
  | some e => .error (.other e)
  | none => .ok (tblLookup tbl k).isSome

/-- `Datastore.GetSize`: `SELECT length(data) ...`; no rows gives
`(-1, ds.ErrNotFound)`, success gives `(size, nil)`, other executor errors
give `(0, err)` — mirrored as the Go pair `(int, error)`. -/
def dsGetSize (tbl : Table) (k : String) (execErr : Option String) :
    Int × Option DsError :=
  match execErr with
  | some e => (0, some (.other e))
  | none =>
    match tblLookup tbl k with
    | none => (-1, some .notFound)
    | some v => ((v.length : Int), none)

/-- `Datastore.Put`: execute the dialect upsert statement; executor errors
propagate unchanged; on success the table is the upserted table and no error
is returned. The dialect is supplied as its upsert row semantics. -/
def dsPut (upsert : Table → String → Bytes → Table) (tbl : Table)
    (k : String) (v : Bytes) (execErr : Option String) :
    Table × Option DsError :=
  match execErr with
  | some e => (tbl, some (.other e))
  | none => (upsert tbl k v, none)

/-- `Datastore.Delete`: execute the delete statement, then inspect
`RowsAffected`; zero affected rows becomes `ds.ErrNotFound`; executor errors
propagate unchanged (and the table is untouched). -/
def dsDelete (tbl : Table) (k : String) (execErr : Option String) :
    Table × Option DsError :=
  match execErr with
  | some e => (tbl, some (.other e))
  | none =>
    if tblCount tbl k = 0 then (tbl, some .notFound)
    else (tblRemove tbl k, none)

/-- `Datastore.Sync`: the body is literally `return nil` — no statement is
executed, so the table is returned untouched together with the (empty) list
of statements the call issued to the executor. -/
def dsSync (tbl : Table) (_k : String) : Table × Option DsError × List String :=
  (tbl, none, [])

/-! ## Batch / transaction manager

`batch` in the source holds `txn *sql.Tx`, `nil` until the first mutation.
A transaction is a pending view of the table; `Commit` publishes it,
`Rollback` discards it; a committed or rolled-back `sql.Tx` answers every
further call with `sql.ErrTxDone`. -/

/-- The error Go's `database/sql` returns when a finished transaction is
used again. -/
def txDoneMsg : String := "sql: transaction has already been committed or rolled back"

/-- The error `batch.Commit` returns when no transaction was ever opened. -/
def noTxnMsg : String := "no transaction started, cannot commit"

/-- The batch's transaction field: `unopened` is Go's `txn == nil`;
`opened pending` is a live transaction whose local view of the table is
`pending`; `finished` is a transaction already committed or rolled back. -/
inductive TxState where
  | unopened
  | opened (pending : Table)
  | finished
  deriving DecidableEq, Repr

/-- Common shape of `batch.Put` and `batch.Delete`: `GetTransaction` (lazily
`Begin`, snapshotting the visible table), then `Exec` the statement (`upd` is
its row effect, `execErr` the injected executor error); on failure the code
calls `b.txn.Rollback()` (finishing the transaction) and returns the original
error. On a finished transaction `Exec` itself fails with `ErrTxDone`. -/
def batchExec (db : Table) (st : TxState) (upd : Table → Table)
    (execErr : Option String) : TxState × Option String :=
  match st with
  | .unopened =>
    match execErr with
    | some e => (.finished, some e)
    | none => (.opened (upd db), none)
  | .opened pending =>
    match execErr with
    | some e => (.finished, some e)
    | none => (.opened (upd pending), none)
  | .finished => (.finished, some txDoneMsg)

/-- `batch.Put`: execute the dialect upsert inside the (lazily opened)
transaction. -/
def batchPut (upsert : Table → String → Bytes → Table) (db : Table)
    (st : TxState) (k : String) (v : Bytes) (execErr : Option String) :
    TxState × Option String :=
  batchExec db st (fun t => upsert t k v) execErr

/-- `batch.Delete`: execute the delete statement inside the (lazily opened)
transaction. The affected-row count is discarded (`_, err = txn.Exec(...)`),
so deleting an absent key is not an error. -/
def batchDelete (db : Table) (st : TxState) (k : String)
    (execErr : Option String) : TxState × Option String :=
  batchExec db st (fun t => tblRemove t k) execErr

/-- `batch.Commit`: error when no transaction was started; otherwise
`txn.Commit()` (its failure injected as `commitErr`) publishes the pending
view; on commit failure `txn.Rollback()` is attempted and only the original
commit error is returned. Returns the table visible to other connections
afterwards, the new transaction state, and the error. -/
def batchCommit (db : Table) (st : TxState) (commitErr : Option String) :
    Table × TxState × Option String :=
  match st with
  | .unopened => (db, .unopened, some noTxnMsg)
  | .opened pending =>
    match commitErr with
    | some e => (db, .finished, some e)
    | none => (pending, .finished, none)
  | .finished => (db, .finished, some txDoneMsg)

/-! ## Dialect providers

The nine statement strings of `postgres.NewQueries` and `sqlite.NewQueries`,
built exactly as the Go `fmt.Sprintf` calls build them. The prefix, limit and
offset entries are format templates (with `%s`/`%d` holes) spliced by the
query composer, not bound parameters. -/

/-- A single-quote character, as it appears inside the SQL fragments. -/
def sqlQuote : String := String.singleton (Char.ofNat 39)

/-- The `sqlds.Queries` interface: the nine statement strings a dialect
provides for one table. -/
structure Queries where
  deleteQuery : String
  existsQuery : String
  getQuery : String
  putQuery : String
  queryQuery : String
  prefixQuery : String
  limitQuery : String
  offsetQuery : String
  getSizeQuery : String
  deriving DecidableEq, Repr

/-- `postgres.NewQueries`: the PostgreSQL statement set for table `tbl`. -/
def pgNewQueries (tbl : String) : Queries :=
  { deleteQuery := "DELETE FROM " ++ tbl ++ " WHERE key = $1"
    existsQuery := "SELECT exists(SELECT 1 FROM " ++ tbl ++ " WHERE key=$1)"
    getQuery := "SELECT data FROM " ++ tbl ++ " WHERE key = $1"
    putQuery := "INSERT INTO " ++ tbl ++
      " (key, data) VALUES ($1, $2) ON CONFLICT (key) DO UPDATE SET data = $2"
    queryQuery := "SELECT key, data FROM " ++ tbl
    prefixQuery := " WHERE key LIKE " ++ sqlQuote ++ "%s%%" ++ sqlQuote ++ " ORDER BY key"
    limitQuery := " LIMIT %d"
    offsetQuery := " OFFSET %d"
    getSizeQuery := "SELECT octet_length(data) FROM " ++ tbl ++ " WHERE key = $1" }

/-- `sqlite.NewQueries`: the SQLite statement set for table `tbl`. -/
def sqliteNewQueries (tbl : String) : Queries :=
  { deleteQuery := "DELETE FROM " ++ tbl ++ " WHERE key = $1"
    existsQuery := "SELECT exists(SELECT 1 FROM " ++ tbl ++ " WHERE key=$1)"
    getQuery := "SELECT data FROM " ++ tbl ++ " WHERE key = $1"
    putQuery := "INSERT OR REPLACE INTO " ++ tbl ++ "(key, data) VALUES($1, $2)"
    queryQuery := "SELECT key, data FROM " ++ tbl
    prefixQuery := " WHERE key GLOB " ++ sqlQuote ++ "%s*" ++ sqlQuote ++ " ORDER BY key"
    limitQuery := " LIMIT %d"
    offsetQuery := " OFFSET %d"
    getSizeQuery := "SELECT length(data) FROM " ++ tbl ++ " WHERE key = $1" }

/-- `fmt.Sprintf` restricted to the verbs the composer uses: one `%s` or `%d`
hole (filled with `arg`) and the escape `%%` for a literal percent sign. -/
def sprintfAux (fmt arg : List Char) : List Char :=
  match fmt with
  | [] => []
  | c :: rest =>
    if c = '%' then
      match rest with
      | [] => [c]
      | d :: rest2 =>
        if d = '%' then d :: sprintfAux rest2 arg
        else if d = 's' ∨ d = 'd' then
          arg ++ sprintfAux rest2 arg
        else c :: d :: sprintfAux rest2 arg
    else c :: sprintfAux rest arg

/-- `fmt.Sprintf` of a one-hole template. -/
def sprintf1 (fmt arg : String) : String :=
  String.mk (sprintfAux fmt.data arg.data)

/-! ## Key canonicalization

`ds.NewKey(s).String()` from go-datastore: ensure a leading slash and apply
Go's lexical `path.Clean` (drop empty and `.` segments, resolve `..`); the
empty key and `/` canonicalize to `/`. -/

/-- Split a character list on `/`, keeping empty segments, the way
`strings.Split`-style splitting underlies Go path handling. `cur` holds the
characters of the segment being read, reversed. -/
def splitSegsAux (cur : List Char) : List Char → List (List Char)
  | [] => [cur.reverse]
  | c :: rest =>
    if c = '/' then cur.reverse :: splitSegsAux [] rest
    else splitSegsAux (c :: cur) rest

/-- The `/`-separated segments of a string. -/
def pathSegs (s : String) : List String :=
  (splitSegsAux [] s.data).map String.mk

/-- Fold path segments, dropping empty and `.` segments and resolving `..`
against the stack, as Go's `path.Clean` does for rooted paths. -/
def cleanSegs (segs : List String) : List String :=
  segs.foldl
    (fun acc seg =>
      if seg = "" ∨ seg = "." then acc
      else if seg = ".." then acc.dropLast
      else acc ++ [seg])
    []

/-- `ds.NewKey(s).String()`: the canonical slash-rooted form of `s`. -/
def keyClean (s : String) : String :=
  let segs := cleanSegs (pathSegs s)
  if segs = [] then "/"
  else segs.foldl (fun acc seg => acc ++ "/" ++ seg) ""

/-! ## SQL pattern matching

Semantics of the two dialects' pattern operators, used to interpret the
spliced prefix fragments `key LIKE '<pfx>%'` and `key GLOB '<pfx>*'`. -/

/-- PostgreSQL `LIKE`: `%` matches any sequence (expressed as: some suffix of
the subject matches the remaining pattern), `_` any single character, `\`
escapes the next pattern character (a trailing escape matches nothing,
postgres rejects such a pattern); any other pattern character must equal the
subject's head. -/
def likeMatch : List Char → List Char → Bool
  | [], s => s.isEmpty
  | p :: ps, s =>
    if p = '%' then s.tails.any (fun t => likeMatch ps t)
    else if p = '_' then !s.isEmpty && likeMatch ps s.tail
    else if p = '\\' then
      match ps with
      | [] => false
      | p2 :: ps2 => (s.head? == some p2) && likeMatch ps2 s.tail
    else (s.head? == some p) && likeMatch ps s.tail

/-- One token of a parsed SQLite GLOB pattern: `*`, `?`, a literal character,
or a (possibly negated) bracket class given by its closed character ranges. -/
inductive GlobTok where
  | star
  | qmark
  | lit (c : Char)
  | cls (neg : Bool) (ranges : List (Char × Char))
  deriving DecidableEq, Repr

/-- Interpret the raw member characters collected inside a bracket class:
`a-b` denotes the closed range, any other character denotes itself. -/
def rangesOf : List Char → List (Char × Char)
  | a :: '-' :: b :: rest => (a, b) :: rangesOf rest
  | a :: rest => (a, a) :: rangesOf rest
  | [] => []

/-- Tokenizer state for GLOB patterns: tokens emitted so far (reversed) and,
when inside a bracket class, its negation flag, collected members (reversed)
and whether the next character is the first member position (where `]` is a
literal member). -/
structure GlobParseSt where
  toks : List GlobTok
  cls : Option (Bool × List Char × Bool)

/-- Consume one pattern character of a SQLite GLOB pattern. -/
def globStepChar (st : GlobParseSt) (c : Char) : GlobParseSt :=
  match st.cls with
  | some (neg, members, first) =>
    if c = ']' ∧ ¬first then
      { toks := GlobTok.cls neg (rangesOf members.reverse) :: st.toks, cls := none }
    else if c = '^' ∧ first ∧ members = [] ∧ ¬neg then
      { st with cls := some (true, [], true) }
    else
      { st with cls := some (neg, c :: members, false) }
  | none =>
    if c = '*' then { st with toks := GlobTok.star :: st.toks }
    else if c = '?' then { st with toks := GlobTok.qmark :: st.toks }
    else if c = '[' then { st with cls := some (false, [], true) }
    else { st with toks := GlobTok.lit c :: st.toks }

/-- Parse a GLOB pattern into tokens; an unterminated bracket class yields
`none` (such a pattern matches nothing in SQLite). -/
def parseGlob (p : List Char) : Option (List GlobTok) :=
  let st := p.foldl globStepChar { toks := [], cls := none }
  match st.cls with
  | some _ => none
  | none => some st.toks.reverse

/-- Whether `c` falls in one of the class ranges. -/
def charInRanges (c : Char) (rs : List (Char × Char)) : Bool :=
  rs.any (fun r => decide (r.1 ≤ c) && decide (c ≤ r.2))

/-- Whether the subject's head character satisfies a (possibly negated)
bracket class; an exhausted subject satisfies no class. -/
def clsHit (neg : Bool) (rs : List (Char × Char)) : Option Char → Bool
  | none => false
  | some c => if neg then !(charInRanges c rs) else charInRanges c rs

/-- Match a token list against a string, `*` matching any sequence (some
suffix of the subject matches the remaining tokens) and `?` any single
character. -/
def matchToks : List GlobTok → List Char → Bool
  | [], s => s.isEmpty
  | .star :: ps, s => s.tails.any (fun t => matchToks ps t)
  | .qmark :: ps, s => !s.isEmpty && matchToks ps s.tail
  | .lit p :: ps, s => (s.head? == some p) && matchToks ps s.tail
  | .cls neg rs :: ps, s => clsHit neg rs s.head? && matchToks ps s.tail

/-- SQLite `GLOB`. -/
def globMatch (pat s : List Char) : Bool :=
  match parseGlob pat with
  | none => false
  | some toks => matchToks toks s

/-- Row predicate of the spliced postgres prefix fragment
`WHERE key LIKE '<pat>%'`, where `pat` is the spliced value (canonical prefix
plus trailing separator). -/
def pgMatchKey (pat k : String) : Bool :=
  likeMatch (pat.data ++ ['%']) k.data

/-- Row predicate of the spliced sqlite prefix fragment
`WHERE key GLOB '<pat>*'`. -/
def sqliteMatchKey (pat k : String) : Bool :=
  globMatch (pat.data ++ ['*']) k.data

/-! ## Query composition (`QueryWithParams`) and evaluation -/

/-- A record descriptor surfaced by query results (`dsq.Entry`): key, value
bytes (empty when suppressed) and reported size. -/
structure Entry where
  key : String
  value : Bytes
  size : Nat
  deriving DecidableEq, Repr

/-- A logical query (`dsq.Query`): `limit`/`offset` are Go ints with `0`
meaning unset; filters and orders are the opaque predicate/comparator
descriptors handed to the naive post-processing collaborator. -/
structure DsQuery where
  pfx : String
  limit : Nat
  offset : Nat
  filters : List (Entry → Bool)
  orders : List (Entry → Entry → Ordering)
  keysOnly : Bool
  returnsSizes : Bool

/-- The composition decisions `QueryWithParams` takes: the value spliced into
the prefix fragment (canonical prefix plus `/`), and the limit/offset values
spliced into their fragments, each `none` when the fragment is not appended. -/
structure ComposedQuery where
  pattern : Option String
  limit : Option Nat
  offset : Option Nat
  deriving DecidableEq, Repr

/-- The decisions of `QueryWithParams`: splice the prefix when non-empty and
not canonically the root; splice limit/offset only when there are no filters
and no orders and the value is nonzero. -/
def composeQuery (q : DsQuery) : ComposedQuery :=
  { pattern :=
      if q.pfx = "" then none
      else if keyClean q.pfx = "/" then none
      else some (keyClean q.pfx ++ "/")
    limit :=
      if q.filters.isEmpty && q.orders.isEmpty && !(q.limit == 0) then some q.limit
      else none
    offset :=
      if q.filters.isEmpty && q.orders.isEmpty && !(q.offset == 0) then some q.offset
      else none }

/-- `QueryWithParams`, string level: start from the bulk-select statement and
append the sprintf-ed fragments in source order (prefix, then limit, then
offset, the latter two only when no naive post-processing is pending). -/
def queryWithParams (qs : Queries) (q : DsQuery) : String :=
  let qNew := qs.queryQuery
  let qNew :=
    if q.pfx ≠ "" then
      let p := keyClean q.pfx
      if p ≠ "/" then qNew ++ sprintf1 qs.prefixQuery (p ++ "/") else qNew
    else qNew
  let qNew :=
    if q.filters.isEmpty && q.orders.isEmpty then
      let qNew := if q.limit ≠ 0 then qNew ++ sprintf1 qs.limitQuery (toString q.limit) else qNew
      if q.offset ≠ 0 then qNew ++ sprintf1 qs.offsetQuery (toString q.offset) else qNew
    else qNew
  qNew

/-- The prefix part of the composed SQL string: the sprintf-ed prefix
fragment when one is appended, empty otherwise. -/
def queryPfxPart (qs : Queries) (q : DsQuery) : String :=
  match (composeQuery q).pattern with
  | some pat => sprintf1 qs.prefixQuery pat
  | none => ""

/-- Lexicographic order on character lists, the `ORDER BY key` collation of
the text key column. -/
def lexLe : List Char → List Char → Bool
  | [], _ => true
  | _ :: _, [] => false
  | a :: as, b :: bs => if a = b then lexLe as bs else decide (a < b)

/-- `ORDER BY key` comparison of two keys. -/
def keyLe (a b : String) : Bool :=
  lexLe a.data b.data

/-- SQL evaluation of a composed bulk query over a table: the optional
`WHERE key <matches> ... ORDER BY key` fragment filters and sorts the rows
(without it rows come in raw table order), then `OFFSET` skips and `LIMIT`
caps. `matchKey pat k` is the dialect's pattern predicate. -/
def evalComposed (matchKey : String → String → Bool) (tbl : Table)
    (cq : ComposedQuery) : Table :=
  let rows :=
    match cq.pattern with
    | none => tbl
    | some pat =>
      List.insertionSort (fun a b => keyLe a.1 b.1 = true) (tbl.filter (fun r => matchKey pat r.1))
  let rows :=
    match cq.offset with
    | none => rows
    | some o => rows.drop o
  match cq.limit with
  | none => rows
  | some l => rows.take l

/-! ## Naive post-processing collaborators and `Datastore.Query`

`dsq.NaiveFilter`, `NaiveOrder`, `NaiveOffset` and `NaiveLimit` are external
(go-datastore) pure sequence transformers: filter by the predicate, stable
sort by the comparator chain (identity when no orders are given), drop,
and take. -/

/-- `dsq.NaiveFilter`. -/
def naiveFilter (f : Entry → Bool) (es : List Entry) : List Entry :=
  es.filter f

/-- Comparator chain of a list of orders: the first non-`eq` answer wins. -/
def ordCompare (orders : List (Entry → Entry → Ordering)) (a b : Entry) : Ordering :=
  match orders with
  | [] => .eq
  | o :: rest =>
    match o a b with
    | .eq => ordCompare rest a b
    | r => r

/-- `dsq.NaiveOrder`: identity when no orders are given, otherwise a stable
sort by the comparator chain. -/
def naiveOrder (orders : List (Entry → Entry → Ordering)) (es : List Entry) : List Entry :=
  match orders with
  | [] => es
  | _ => List.insertionSort (fun a b => ordCompare orders a b ≠ .gt) es

/-- `dsq.NaiveOffset`. -/
def naiveOffset (o : Nat) (es : List Entry) : List Entry :=
  es.drop o

/-- `dsq.NaiveLimit`. -/
def naiveLimit (l : Nat) (es : List Entry) : List Entry :=
  es.take l

/-- How `RawQuery`'s iterator turns one scanned row into a `dsq.Entry`:
the value is suppressed under `KeysOnly`, and the size is the scanned
value's length under `ReturnsSizes` (computed before suppression). -/
def mkEntry (q : DsQuery) (r : String × Bytes) : Entry :=
  { key := r.1
    value := if q.keysOnly then [] else r.2
    size := if q.returnsSizes then r.2.length else 0 }

/-- `Datastore.RawQuery` on the happy path (every row scans): the rows the
composed SQL returns, each turned into an entry. -/
def rawQueryEntries (matchKey : String → String → Bool) (tbl : Table)
    (q : DsQuery) : List Entry :=
  (evalComposed matchKey tbl (composeQuery q)).map (mkEntry q)

/-- `Datastore.Query`: raw results, then every filter naively applied, then
naive ordering, then — only when filters or orders are present, since
limit/offset were then not pushed into SQL — naive offset and naive limit. -/
def dsQueryEntries (matchKey : String → String → Bool) (tbl : Table)
    (q : DsQuery) : List Entry :=
  let raw := rawQueryEntries matchKey tbl q
  let raw := q.filters.foldl (fun acc f => naiveFilter f acc) raw
  let raw := naiveOrder q.orders raw
  if !q.filters.isEmpty || !q.orders.isEmpty then
    let raw := if q.offset ≠ 0 then naiveOffset q.offset raw else raw
    if q.limit ≠ 0 then naiveLimit q.limit raw else raw
  else raw

/-! ## The result stream iterator (`RawQuery`) -/

/-- One physical cursor row as the driver presents it to `rows.Scan`: either
a scannable `(key, data)` pair or a row whose scan fails. -/
inductive RawRow where
  | ok (key : String) (data : Bytes)
  | scanErr (msg : String)
  deriving DecidableEq, Repr

/-- `dsq.Result`: an entry or an error, as yielded by the iterator. -/
structure QResult where
  entry : Entry
  error : Option String
  deriving DecidableEq, Repr

/-- The zero `dsq.Result{}` value. -/
def emptyQResult : QResult :=
  { entry := { key := "", value := [], size := 0 }, error := none }

/-- One call of the `dsq.Iterator.Next` closure built by `RawQuery`, on the
cursor's remaining rows: cursor exhausted yields `(Result{}, false)`; a scan
failure yields `(Result{Error: err}, false)` — the error is carried in the
returned result value and iteration stops; a scanned row yields its entry
and `true`. Also returns the remaining rows. -/
def iterNext (q : DsQuery) (rows : List RawRow) :
    (QResult × Bool) × List RawRow :=
  match rows with
  | [] => ((emptyQResult, false), [])
  | .ok k out :: rest => (({ entry := mkEntry q (k, out), error := none }, true), rest)
  | .scanErr e :: rest => (({ entry := { key := "", value := [], size := 0 }, error := some e }, false), rest)

/-- The full call trace of the iterator: every `(Result, bool)` pair returned
by successive `Next` calls, through the first call that returns `false`
(after which the consumer stops calling). -/
def iterCalls (q : DsQuery) (rows : List RawRow) : List (QResult × Bool) :=
  match rows with
  | [] => [(emptyQResult, false)]
  | .ok k out :: rest =>
    ({ entry := mkEntry q (k, out), error := none }, true) :: iterCalls q rest
  | .scanErr e :: _ =>
    [({ entry := { key := "", value := [], size := 0 }, error := some e }, false)]

/-! ## Backend constructors -/

/-- The environment a constructor runs against: the error `sql.Open` would
return, the error `db.Ping` would return (`some` when the database is
unreachable), and the error the table-creation `Exec` would return. -/
structure DbEnv where
  openErr : Option String
  pingErr : Option String
  execErr : Option String
  deriving DecidableEq, Repr

/-- `postgres.Options.Create`: fill defaults, build the connection string,
`sql.Open` — whose error is returned as-is — and hand the statement set to
`NewDatastore`. No other call is made before returning: in particular the
environment's ping outcome is never consulted. -/
def pgCreate (tbl : String) (env : DbEnv) : Except String Queries :=
  match env.openErr with
  | some e => .error e
  | none => .ok (pgNewQueries (if tbl = "" then "blocks" else tbl))

/-- The sqlite constructor options the claims touch: the sqlcipher key and
the `NoCreate` flag. -/
structure SqliteOptions where
  key : Bytes
  noCreate : Bool
  deriving DecidableEq, Repr

/-- `errors.Wrap(err, msg)` from pkg/errors. -/
def wrapErr (msg e : String) : String := msg ++ ": " ++ e

/-- `sqlite.Options.Create`: reject a bad cipher key length; `sql.Open`
(wrapped error); `db.Ping` — the connectivity probe — closing and returning a
wrapped error on failure; then unless `NoCreate`, ensure the table exists;
finally hand the statement set to `NewDatastore`. -/
def sqliteCreate (opts : SqliteOptions) (tbl : String) (env : DbEnv) :
    Except String Queries :=
  if opts.key.length ≠ 0 ∧ opts.key.length ≠ 32 then
    .error ("bad key length, expected 32 bytes, got " ++ toString opts.key.length)
  else
    match env.openErr with
    | some e => .error (wrapErr "failed to open database" e)
    | none =>
      match env.pingErr with
      | some e => .error (wrapErr "failed to ping database" e)
      | none =>
        if opts.noCreate then .ok (sqliteNewQueries (if tbl = "" then "blocks" else tbl))
        else
          match env.execErr with
          | some e => .error (wrapErr "failed to ensure table exists" e)
          | none => .ok (sqliteNewQueries (if tbl = "" then "blocks" else tbl))

/-! ## Concrete scenario inputs used by witnesses and counterexamples -/

/-- Five rows, all matching the witness filter, in a raw order that differs
from the witness ordering. -/
def tblC1 : Table :=
  [("/k1", [5]), ("/k2", [4]), ("/k3", [9]), ("/k4", [2]), ("/k5", [1])]

/-- A query with a custom filter (single-byte values) and a custom order
(descending first byte) plus `limit = 1, offset = 1`. -/
def qC1 : DsQuery :=
  ⟨"", 1, 1, [fun e => e.value.length == 1],
    [fun a b => compare (b.value.headD 0) (a.value.headD 0)], false, false⟩

/-- A query whose canonical prefix `/a%` contains the LIKE wildcard `%`. -/
def qC3bad : DsQuery :=
  ⟨"/a%", 0, 0, [], [], false, false⟩

/-- A query with the plain prefix `/a`. -/
def qC3 : DsQuery :=
  ⟨"/a", 0, 0, [], [], false, false⟩

/-- Keys under `/a`, a sibling `/b/1`, and the boundary key `/ab`, inserted
in scrambled order. -/
def tblC3 : Table :=
  [("/b/1", [3]), ("/a/2", [2]), ("/ab", [4]), ("/a/1", [1])]

/-- A query whose prefix is the root key. -/
def qC3root : DsQuery :=
  ⟨"/", 0, 0, [], [], false, false⟩

/-- An environment whose database opens fine but is unreachable (ping would
fail). -/
def envC4 : DbEnv := ⟨none, some "connection refused", none⟩

/-! ## Helper lemmas -/

theorem tblLookup_cons (k2 : String) (v : Bytes) (rest : Table) (k : String) :
    tblLookup ((k2, v) :: rest) k = if k2 = k then some v else tblLookup rest k := rfl

theorem tblLookup_append_of_none {l1 : Table} (l2 : Table) {k : String}
    (h : tblLookup l1 k = none) : tblLookup (l1 ++ l2) k = tblLookup l2 k := by
  induction l1 with
  | nil => rfl
  | cons r rest ih =>
    obtain ⟨k2, v⟩ := r
    rw [tblLookup_cons] at h
    rw [List.cons_append, tblLookup_cons]
    by_cases hk : k2 = k
    · simp [hk] at h
    · simp only [hk, if_false] at h ⊢
      exact ih h

theorem tblLookup_tblRemove (tbl : Table) (k : String) :
    tblLookup (tblRemove tbl k) k = none := by
  induction tbl with
  | nil => rfl
  | cons r rest ih =>
    obtain ⟨k2, v⟩ := r
    unfold tblRemove at ih ⊢
    rw [List.filter_cons]
    by_cases hk : k2 = k
    · simp only [hk]
      simpa using ih
    · have : ((fun r : String × Bytes => decide (r.1 ≠ k)) (k2, v)) = true := by
        simpa using hk
      simpa [this, tblLookup_cons, hk] using ih

theorem tblCount_eq_zero {tbl : Table} {k : String}
    (h : tblLookup tbl k = none) : tblCount tbl k = 0 := by
  induction tbl with
  | nil => rfl
  | cons r rest ih =>
    obtain ⟨k2, v⟩ := r
    rw [tblLookup_cons] at h
    by_cases hk : k2 = k
    · simp [hk] at h
    · simp only [hk, if_false] at h
      unfold tblCount at ih ⊢
      rw [List.filter_cons]
      simpa [hk] using ih h

theorem tblLookup_upsertReplace (tbl : Table) (k : String) (v : Bytes) :
    tblLookup (upsertReplace tbl k v) k = some v := by
  unfold upsertReplace
  rw [tblLookup_append_of_none _ (tblLookup_tblRemove tbl k)]
  simp [tblLookup_cons]

theorem tblLookup_map_update {tbl : Table} {k : String} (v : Bytes)
    (h : (tblLookup tbl k).isSome = true) :
    tblLookup (tbl.map (fun r => if r.1 = k then (k, v) else r)) k = some v := by
  induction tbl with
  | nil => simp [tblLookup] at h
  | cons r rest ih =>
    obtain ⟨k2, v2⟩ := r
    rw [tblLookup_cons] at h
    by_cases hk : k2 = k
    · simp [List.map_cons, hk, tblLookup_cons]
    · simp only [hk, if_false] at h
      simp only [List.map_cons]
      rw [if_neg (by simpa using hk), tblLookup_cons, if_neg hk]
      exact ih h

theorem tblLookup_upsertPg (tbl : Table) (k : String) (v : Bytes) :
    tblLookup (upsertPg tbl k v) k = some v := by
  unfold upsertPg
  by_cases h : (tblLookup tbl k).isSome = true
  · rw [if_pos h]
    exact tblLookup_map_update v h
  · rw [if_neg h]
    have hnone : tblLookup tbl k = none := by
      cases hc : tblLookup tbl k with
      | none => rfl
      | some w => rw [hc] at h; simp at h
    rw [tblLookup_append_of_none _ hnone]
    simp [tblLookup_cons]

/-- `iterCalls` is the unfolding of the iterator: each call is `iterNext` on
the remaining rows; a `true` flag means the consumer calls again on the rest,
a `false` flag ends the trace with that returned pair. -/
theorem iterCalls_eq_iterNext (q : DsQuery) (rows : List RawRow) :
    iterCalls q rows =
      (match iterNext q rows with
       | ((r, true), rest) => (r, true) :: iterCalls q rest
       | ((r, false), _) => [(r, false)]) := by
  cases rows with
  | nil => rfl
  | cons hd tl => cases hd <;> rfl

theorem likeMatch_pct (ps s : List Char) :
    likeMatch ('%' :: ps) s = s.tails.any (fun t => likeMatch ps t) := by
  rw [likeMatch.eq_def]
  dsimp only
  rw [if_pos rfl]

theorem likeMatch_cons_lit {c : Char} (hc1 : c ≠ '%') (hc2 : c ≠ '_')
    (hc3 : c ≠ '\\') (ps s : List Char) :
    likeMatch (c :: ps) s = ((s.head? == some c) && likeMatch ps s.tail) := by
  rw [likeMatch.eq_def]
  dsimp only
  rw [if_neg hc1, if_neg hc2, if_neg hc3]

theorem tails_any_likeMatch_nil (s : List Char) :
    s.tails.any (fun t => likeMatch [] t) = true := by
  induction s with
  | nil => rfl
  | cons c cs ih => rw [List.tails_cons, List.any_cons, ih, Bool.or_true]

/-- A LIKE pattern that is a wildcard-free literal followed by a single
trailing `%` matches exactly the strings extending the literal. -/
theorem likeMatch_literal {l : List Char}
    (hfree : ∀ c ∈ l, c ≠ '%' ∧ c ≠ '_' ∧ c ≠ '\\') (s : List Char) :
    likeMatch (l ++ ['%']) s = l.isPrefixOf s := by
  induction l generalizing s with
  | nil =>
    rw [List.nil_append, likeMatch_pct, tails_any_likeMatch_nil]
    cases s <;> rfl
  | cons c l ih =>
    obtain ⟨hc1, hc2, hc3⟩ := hfree c (List.mem_cons_self c l)
    have hfree2 : ∀ d ∈ l, d ≠ '%' ∧ d ≠ '_' ∧ d ≠ '\\' :=
      fun d hd => hfree d (List.mem_cons_of_mem c hd)
    rw [List.cons_append, likeMatch_cons_lit hc1 hc2 hc3]
    cases s with
    | nil => rfl
    | cons a as =>
      show ((some a == some c) && likeMatch (l ++ ['%']) as) = ((c == a) && l.isPrefixOf as)
      rw [ih hfree2]
      by_cases hca : c = a
      · rw [hca]
        simp
      · have h1 : (some a == some c) = false :=
          beq_eq_false_iff_ne.mpr (fun h => (Ne.symm hca) (Option.some.inj h))
        rw [h1, beq_eq_false_iff_ne.mpr hca, Bool.false_and]

theorem matchToks_star (ps : List GlobTok) (s : List Char) :
    matchToks (GlobTok.star :: ps) s = s.tails.any (fun t => matchToks ps t) := by
  rw [matchToks.eq_def]

theorem matchToks_lit (c : Char) (ps : List GlobTok) (s : List Char) :
    matchToks (GlobTok.lit c :: ps) s
      = ((s.head? == some c) && matchToks ps s.tail) := by
  rw [matchToks.eq_def]

theorem tails_any_matchToks_nil (s : List Char) :
    s.tails.any (fun t => matchToks [] t) = true := by
  induction s with
  | nil => rfl
  | cons c cs ih => rw [List.tails_cons, List.any_cons, ih, Bool.or_true]

/-- A glob token list that is literals followed by a single trailing `*`
matches exactly the strings extending the literal. -/
theorem matchToks_literal (l : List Char) (s : List Char) :
    matchToks (l.map GlobTok.lit ++ [GlobTok.star]) s = l.isPrefixOf s := by
  induction l generalizing s with
  | nil =>
    rw [List.map_nil, List.nil_append, matchToks_star, tails_any_matchToks_nil]
    cases s <;> rfl
  | cons c l ih =>
    rw [List.map_cons, List.cons_append, matchToks_lit]
    cases s with
    | nil => rfl
    | cons a as =>
      show ((some a == some c) && matchToks (l.map GlobTok.lit ++ [GlobTok.star]) as)
        = ((c == a) && l.isPrefixOf as)
      rw [ih]
      by_cases hca : c = a
      · rw [hca]
        simp
      · have h1 : (some a == some c) = false :=
          beq_eq_false_iff_ne.mpr (fun h => (Ne.symm hca) (Option.some.inj h))
        rw [h1, beq_eq_false_iff_ne.mpr hca, Bool.false_and]

/-- Tokenizing wildcard-free characters emits one literal token each. -/
theorem foldl_globStep_literals {l : List Char}
    (hfree : ∀ c ∈ l, c ≠ '*' ∧ c ≠ '?' ∧ c ≠ '[') (t : List GlobTok) :
    List.foldl globStepChar { toks := t, cls := none } l
      = { toks := (l.map GlobTok.lit).reverse ++ t, cls := none } := by
  induction l generalizing t with
  | nil => simp
  | cons c l ih =>
    obtain ⟨hc1, hc2, hc3⟩ := hfree c (List.mem_cons_self c l)
    have hfree2 : ∀ d ∈ l, d ≠ '*' ∧ d ≠ '?' ∧ d ≠ '[' :=
      fun d hd => hfree d (List.mem_cons_of_mem c hd)
    rw [List.foldl_cons]
    have hstep : globStepChar { toks := t, cls := none } c
        = { toks := GlobTok.lit c :: t, cls := none } := by
      simp [globStepChar, hc1, hc2, hc3]
    rw [hstep, ih hfree2]
    simp

/-- Parsing a wildcard-free literal followed by `*`. -/
theorem parseGlob_literal_star {l : List Char}
    (hfree : ∀ c ∈ l, c ≠ '*' ∧ c ≠ '?' ∧ c ≠ '[') :
    parseGlob (l ++ ['*']) = some (l.map GlobTok.lit ++ [GlobTok.star]) := by
  unfold parseGlob
  rw [List.foldl_append, foldl_globStep_literals hfree]
  simp [globStepChar]

/-- A GLOB pattern that is a wildcard-free literal followed by a single
trailing `*` matches exactly the strings extending the literal. -/
theorem globMatch_literal {l : List Char}
    (hfree : ∀ c ∈ l, c ≠ '*' ∧ c ≠ '?' ∧ c ≠ '[') (s : List Char) :
    globMatch (l ++ ['*']) s = l.isPrefixOf s := by
  unfold globMatch
  rw [parseGlob_literal_star hfree]
  exact matchToks_literal l s

/-- Membership in the evaluation of a composed query that has a prefix
pattern and no limit/offset: exactly the table rows whose key satisfies the
dialect predicate. -/
theorem mem_evalComposed_pattern (matchKey : String → String → Bool)
    (tbl : Table) (pat : String) (k : String) (v : Bytes) :
    ((k, v) ∈ evalComposed matchKey tbl ⟨some pat, none, none⟩ ↔
      (k, v) ∈ tbl ∧ matchKey pat k = true) := by
  unfold evalComposed
  simp [List.mem_insertionSort, List.mem_filter]

/-! ## Claim theorems -/

/-- C10: for every table and key, `Datastore.Sync` returns `nil`, issues no
statement to the executor, and leaves the stored table unchanged. -/
theorem sync_is_noop (tbl : Table) (k : String) :
    dsSync tbl k = (tbl, none, []) := rfl

/-- C9: within a batch, `Delete` on a key absent from the store succeeds
(returns `nil`, because `batch.Delete` discards the affected-row count),
while datastore-level `Delete` on the same absent key returns `NotFound`
(it inspects the zero affected-row count). -/
theorem batch_delete_absent_succeeds (tbl : Table) (k : String)
    (h : tblLookup tbl k = none) :
    batchDelete tbl TxState.unopened k none
      = (TxState.opened (tblRemove tbl k), none) ∧
    dsDelete tbl k none = (tbl, some DsError.notFound) := by
  refine ⟨rfl, ?_⟩
  unfold dsDelete
  simp [tblCount_eq_zero h]

theorem batch_delete_absent_succeeds_witness :
    tblLookup [("/a", [1])] "/b" = none ∧
    (batchDelete [("/a", [1])] TxState.unopened "/b" none
        = (TxState.opened (tblRemove [("/a", [1])] "/b"), none) ∧
      dsDelete [("/a", [1])] "/b" none = ([("/a", [1])], some DsError.notFound)) :=
  ⟨by decide, batch_delete_absent_succeeds [("/a", [1])] "/b" (by decide)⟩

/-- C5: for a key with no row, `Get` is `NotFound`, `Has` is `false` with no
error, `GetSize` is `NotFound` (with the Go sentinel `-1`), and `Delete` is
`NotFound` detected via the zero affected-row count; any injected executor
error other than the no-row condition propagates unchanged out of each of the
four operations. -/
theorem point_ops_missing_key (tbl : Table) (k : String)
    (h : tblLookup tbl k = none) :
    dsGet tbl k none = .error .notFound ∧
    dsHas tbl k none = .ok false ∧
    dsGetSize tbl k none = (-1, some .notFound) ∧
    dsDelete tbl k none = (tbl, some .notFound) ∧
    (∀ e : String,
      dsGet tbl k (some e) = .error (.other e) ∧
      dsHas tbl k (some e) = .error (.other e) ∧
      dsGetSize tbl k (some e) = (0, some (.other e)) ∧
      dsDelete tbl k (some e) = (tbl, some (.other e))) := by
  refine ⟨?_, ?_, ?_, ?_, fun e => ⟨rfl, rfl, rfl, rfl⟩⟩ <;>
    simp [dsGet, dsHas, dsGetSize, dsDelete, h, tblCount_eq_zero h]

theorem point_ops_missing_key_witness :
    tblLookup [("/a", [7])] "/never" = none ∧
    (dsGet [("/a", [7])] "/never" none = .error .notFound ∧
      dsHas [("/a", [7])] "/never" none = .ok false ∧
      dsGetSize [("/a", [7])] "/never" none = (-1, some .notFound) ∧
      dsDelete [("/a", [7])] "/never" none = ([("/a", [7])], some .notFound) ∧
      (∀ e : String,
        dsGet [("/a", [7])] "/never" (some e) = .error (.other e) ∧
        dsHas [("/a", [7])] "/never" (some e) = .error (.other e) ∧
        dsGetSize [("/a", [7])] "/never" (some e) = (0, some (.other e)) ∧
        dsDelete [("/a", [7])] "/never" (some e) = ([("/a", [7])], some (.other e)))) :=
  ⟨by decide, point_ops_missing_key [("/a", [7])] "/never" (by decide)⟩

/-- C6: under both dialects' upsert statements, `Put` then `Get` returns the
written bytes exactly; two `Put`s to the same key leave the second value
(last write wins); and the overwriting `Put` surfaces no error. -/
theorem put_get_roundtrip (tbl : Table) (k : String) (v v1 v2 : Bytes) :
    dsGet (dsPut upsertPg tbl k v none).1 k none = .ok v ∧
    dsGet (dsPut upsertReplace tbl k v none).1 k none = .ok v ∧
    dsGet (dsPut upsertPg (dsPut upsertPg tbl k v1 none).1 k v2 none).1 k none = .ok v2 ∧
    dsGet (dsPut upsertReplace (dsPut upsertReplace tbl k v1 none).1 k v2 none).1 k none = .ok v2 ∧
    (dsPut upsertPg (dsPut upsertPg tbl k v1 none).1 k v2 none).2 = none ∧
    (dsPut upsertReplace (dsPut upsertReplace tbl k v1 none).1 k v2 none).2 = none := by
  refine ⟨?_, ?_, ?_, ?_, rfl, rfl⟩ <;>
    simp [dsPut, dsGet, tblLookup_upsertPg, tblLookup_upsertReplace]

/-- C7: `Commit` on a batch that never opened a transaction returns the
explicit "nothing to commit" error (not a silent no-op success), and when the
commit of an opened transaction fails, a rollback is attempted (the
transaction ends up finished) and only the original commit error is returned,
the visible table unchanged. -/
theorem commit_unopened_and_commit_failure (db pending : Table)
    (ce : Option String) (e : String) :
    batchCommit db TxState.unopened ce = (db, TxState.unopened, some noTxnMsg) ∧
    batchCommit db (TxState.opened pending) (some e) = (db, TxState.finished, some e) :=
  ⟨rfl, rfl⟩

/-- C2: a batch `Put(a, x)` opens the transaction and applies the upsert to
the pending view only; if the following `Delete`'s execution fails, the whole
transaction is rolled back at once and the original error is returned, after
which nothing can be committed — the visible store stays `db`, so the earlier
`Put(a, x)` is absent — and further batch operations fail; when instead every
operation succeeds, `Commit` atomically publishes both accumulated effects. -/
theorem batch_rollback_and_atomic_commit (db : Table)
    (upsert : Table → String → Bytes → Table)
    (a bk : String) (x : Bytes) (e : String) :
    batchPut upsert db TxState.unopened a x none
      = (TxState.opened (upsert db a x), none) ∧
    batchDelete db (TxState.opened (upsert db a x)) bk (some e)
      = (TxState.finished, some e) ∧
    (∀ ce, batchCommit db TxState.finished ce = (db, TxState.finished, some txDoneMsg)) ∧
    (∀ k2 v2 err, batchPut upsert db TxState.finished k2 v2 err
      = (TxState.finished, some txDoneMsg)) ∧
    batchDelete db (TxState.opened (upsert db a x)) bk none
      = (TxState.opened (tblRemove (upsert db a x) bk), none) ∧
    batchCommit db (TxState.opened (tblRemove (upsert db a x) bk)) none
      = (tblRemove (upsert db a x) bk, TxState.finished, none) :=
  ⟨rfl, rfl, fun _ => rfl, fun _ _ _ => rfl, rfl, rfl⟩

/-- C8: when the cursor has `good` scannable rows followed by a row whose
scan fails, the iterator built by `RawQuery` yields each good row's entry
with a `true` flag, then returns a result value carrying the scan error —
delivered in the yielded result, not a side channel — together with the
terminating `false` flag, and no later row (`rest`) is ever produced. -/
theorem scan_error_is_terminal_result (q : DsQuery)
    (good : List (String × Bytes)) (e : String) (rest : List RawRow) :
    iterCalls q (good.map (fun r => RawRow.ok r.1 r.2) ++ RawRow.scanErr e :: rest) =
      good.map (fun r => ({ entry := mkEntry q r, error := none }, true)) ++
        [({ entry := { key := "", value := [], size := 0 }, error := some e }, false)] := by
  induction good with
  | nil => rfl
  | cons r rows ih =>
    obtain ⟨k, v⟩ := r
    simpa [iterCalls] using ih

/-- C1: when the query carries filters or orderings, no limit/offset is
spliced into the SQL — neither in the composition decisions nor in the
composed string, which ends after the (possible) prefix fragment — and the
returned entries are the in-memory pipeline's output: offset dropped and
then limit taken from the naively filtered and ordered raw sequence, so the
window is cut from the filtered/ordered sequence, not from raw table
order. -/
theorem deferred_limit_offset (qs : Queries) (matchKey : String → String → Bool)
    (tbl : Table) (q : DsQuery)
    (h : (q.filters.isEmpty && q.orders.isEmpty) = false) :
    (composeQuery q).limit = none ∧
    (composeQuery q).offset = none ∧
    queryWithParams qs q = qs.queryQuery ++ queryPfxPart qs q ∧
    dsQueryEntries matchKey tbl q =
      (if q.limit = 0 then
        (naiveOrder q.orders (q.filters.foldl (fun acc f => naiveFilter f acc)
          (rawQueryEntries matchKey tbl q))).drop q.offset
      else
        ((naiveOrder q.orders (q.filters.foldl (fun acc f => naiveFilter f acc)
          (rawQueryEntries matchKey tbl q))).drop q.offset).take q.limit) := by
  refine ⟨?_, ?_, ?_, ?_⟩
  · simp [composeQuery, h]
  · simp [composeQuery, h]
  · by_cases hp : q.pfx = "" <;> by_cases hr : keyClean q.pfx = "/" <;>
      simp [queryWithParams, queryPfxPart, composeQuery, h, hp, hr]
  · have hor : (!q.filters.isEmpty || !q.orders.isEmpty) = true := by
      cases hf : q.filters.isEmpty <;> cases ho : q.orders.isEmpty <;>
        simp_all
    by_cases hl : q.limit = 0 <;> by_cases ho : q.offset = 0 <;>
      simp [dsQueryEntries, hor, hl, ho, naiveOffset, naiveLimit]

theorem deferred_limit_offset_witness :
    ((qC1.filters.isEmpty && qC1.orders.isEmpty) = false) ∧
    ((composeQuery qC1).limit = none ∧
      (composeQuery qC1).offset = none ∧
      queryWithParams (pgNewQueries "blocks") qC1 =
        (pgNewQueries "blocks").queryQuery ++ queryPfxPart (pgNewQueries "blocks") qC1 ∧
      dsQueryEntries pgMatchKey tblC1 qC1 =
        (if qC1.limit = 0 then
          (naiveOrder qC1.orders (qC1.filters.foldl (fun acc f => naiveFilter f acc)
            (rawQueryEntries pgMatchKey tblC1 qC1))).drop qC1.offset
        else
          ((naiveOrder qC1.orders (qC1.filters.foldl (fun acc f => naiveFilter f acc)
            (rawQueryEntries pgMatchKey tblC1 qC1))).drop qC1.offset).take qC1.limit)) ∧
    dsQueryEntries pgMatchKey tblC1 qC1 = [{ key := "/k1", value := [5], size := 0 }] ∧
    ((rawQueryEntries pgMatchKey tblC1 qC1).drop 1).take 1
      = [{ key := "/k2", value := [4], size := 0 }] :=
  ⟨by decide, deferred_limit_offset (pgNewQueries "blocks") pgMatchKey tblC1 qC1 (by decide),
    by decide, by decide⟩

/-- C3 counterexample: the canonical, non-root prefix `/a%` contains the LIKE
wildcard `%`; it is spliced verbatim, and the composed postgres query then
matches the key `/ab/c`, which is not strictly below the path `/a%` (the
separator-terminated prefix `/a%/` is not a string prefix of it, nor is the
key the prefix itself) — so it is not the case that exactly the keys strictly
below the prefix path match. -/
theorem pfx_wildcard_overmatches :
    composeQuery qC3bad = ⟨some "/a%/", none, none⟩ ∧
    evalComposed pgMatchKey [("/ab/c", [1])] (composeQuery qC3bad) = [("/ab/c", [1])] ∧
    ("/a%/".data.isPrefixOf "/ab/c".data) = false ∧
    ("/ab/c" : String) ≠ "/a%" := by
  refine ⟨by decide, by decide, by decide, by decide⟩

/-- C3 (amended): a query whose prefix canonicalizes to the root (or is
empty) appends no prefix fragment and matches the whole table; a query with
a non-empty, non-root prefix appends the prefix fragment with the canonical
prefix plus a trailing `/` spliced in, and — provided the canonical prefix is
free of the dialect's wildcard/escape characters (`%`, `_`, `\` for postgres
LIKE; `*`, `?`, `[` for sqlite GLOB) — exactly the keys strictly below that
path (those extending `prefix + "/"`) match, regardless of the table's row
order. Limit and offset are taken unset, so the whole match set is
returned. -/
theorem pfx_boundary (tbl : Table) (q : DsQuery)
    (hlim : q.limit = 0) (hoff : q.offset = 0) :
    ((q.pfx = "" ∨ keyClean q.pfx = "/") →
      (composeQuery q).pattern = none ∧
      (∀ matchKey, evalComposed matchKey tbl (composeQuery q) = tbl) ∧
      (∀ qs : Queries, queryWithParams qs q = qs.queryQuery)) ∧
    (q.pfx ≠ "" → keyClean q.pfx ≠ "/" →
      (composeQuery q).pattern = some (keyClean q.pfx ++ "/") ∧
      (∀ qs : Queries, queryWithParams qs q
        = qs.queryQuery ++ sprintf1 qs.prefixQuery (keyClean q.pfx ++ "/")) ∧
      ((∀ c ∈ (keyClean q.pfx).data, c ≠ '%' ∧ c ≠ '_' ∧ c ≠ '\\') →
        ∀ k v, ((k, v) ∈ evalComposed pgMatchKey tbl (composeQuery q) ↔
          (k, v) ∈ tbl ∧ ((keyClean q.pfx ++ "/").data.isPrefixOf k.data) = true)) ∧
      ((∀ c ∈ (keyClean q.pfx).data, c ≠ '*' ∧ c ≠ '?' ∧ c ≠ '[') →
        ∀ k v, ((k, v) ∈ evalComposed sqliteMatchKey tbl (composeQuery q) ↔
          (k, v) ∈ tbl ∧ ((keyClean q.pfx ++ "/").data.isPrefixOf k.data) = true))) := by
  constructor
  · intro h
    have hcq : composeQuery q = ⟨none, none, none⟩ := by
      rcases h with hp | hr
      · simp [composeQuery, hp, hlim, hoff]
      · by_cases hp : q.pfx = "" <;> simp [composeQuery, hp, hr, hlim, hoff]
    refine ⟨by rw [hcq], fun matchKey => by rw [hcq]; rfl, fun qs => ?_⟩
    rcases h with hp | hr
    · simp [queryWithParams, hp, hlim, hoff]
    · by_cases hp : q.pfx = "" <;> simp [queryWithParams, hp, hr, hlim, hoff]
  · intro hne hroot
    have hcq : composeQuery q = ⟨some (keyClean q.pfx ++ "/"), none, none⟩ := by
      simp [composeQuery, hne, hroot, hlim, hoff]
    refine ⟨by rw [hcq], fun qs => ?_, ?_, ?_⟩
    · simp [queryWithParams, hne, hroot, hlim, hoff]
    · intro hfree k v
      have hfree2 : ∀ c ∈ ((keyClean q.pfx ++ "/").data), c ≠ '%' ∧ c ≠ '_' ∧ c ≠ '\\' := by
        intro c hc
        have hc2 : c ∈ (keyClean q.pfx).data ++ [Char.ofNat 47] := hc
        rcases List.mem_append.mp hc2 with h1 | h1
        · exact hfree c h1
        · have : c = Char.ofNat 47 := List.mem_singleton.mp h1
          subst this
          refine ⟨by decide, by decide, by decide⟩
      rw [hcq, mem_evalComposed_pattern]
      have hmk : pgMatchKey (keyClean q.pfx ++ "/") k
          = ((keyClean q.pfx ++ "/").data.isPrefixOf k.data) := by
        unfold pgMatchKey
        exact likeMatch_literal hfree2 k.data
      rw [hmk]
    · intro hfree k v
      have hfree2 : ∀ c ∈ ((keyClean q.pfx ++ "/").data), c ≠ '*' ∧ c ≠ '?' ∧ c ≠ '[' := by
        intro c hc
        have hc2 : c ∈ (keyClean q.pfx).data ++ [Char.ofNat 47] := hc
        rcases List.mem_append.mp hc2 with h1 | h1
        · exact hfree c h1
        · have : c = Char.ofNat 47 := List.mem_singleton.mp h1
          subst this
          refine ⟨by decide, by decide, by decide⟩
      rw [hcq, mem_evalComposed_pattern]
      have hmk : sqliteMatchKey (keyClean q.pfx ++ "/") k
          = ((keyClean q.pfx ++ "/").data.isPrefixOf k.data) := by
        unfold sqliteMatchKey
        exact globMatch_literal hfree2 k.data
      rw [hmk]

theorem pfx_boundary_witness :
    (qC3.limit = 0 ∧ qC3.offset = 0) ∧
    (((qC3.pfx = "" ∨ keyClean qC3.pfx = "/") →
      (composeQuery qC3).pattern = none ∧
      (∀ matchKey, evalComposed matchKey tblC3 (composeQuery qC3) = tblC3) ∧
      (∀ qs : Queries, queryWithParams qs qC3 = qs.queryQuery)) ∧
    (qC3.pfx ≠ "" → keyClean qC3.pfx ≠ "/" →
      (composeQuery qC3).pattern = some (keyClean qC3.pfx ++ "/") ∧
      (∀ qs : Queries, queryWithParams qs qC3
        = qs.queryQuery ++ sprintf1 qs.prefixQuery (keyClean qC3.pfx ++ "/")) ∧
      ((∀ c ∈ (keyClean qC3.pfx).data, c ≠ '%' ∧ c ≠ '_' ∧ c ≠ '\\') →
        ∀ k v, ((k, v) ∈ evalComposed pgMatchKey tblC3 (composeQuery qC3) ↔
          (k, v) ∈ tblC3 ∧ ((keyClean qC3.pfx ++ "/").data.isPrefixOf k.data) = true)) ∧
      ((∀ c ∈ (keyClean qC3.pfx).data, c ≠ '*' ∧ c ≠ '?' ∧ c ≠ '[') →
        ∀ k v, ((k, v) ∈ evalComposed sqliteMatchKey tblC3 (composeQuery qC3) ↔
          (k, v) ∈ tblC3 ∧ ((keyClean qC3.pfx ++ "/").data.isPrefixOf k.data) = true)))) ∧
    evalComposed pgMatchKey tblC3 (composeQuery qC3) = [("/a/1", [1]), ("/a/2", [2])] ∧
    evalComposed sqliteMatchKey tblC3 (composeQuery qC3) = [("/a/1", [1]), ("/a/2", [2])] ∧
    (composeQuery qC3root).pattern = none ∧
    evalComposed pgMatchKey tblC3 (composeQuery qC3root) = tblC3 ∧
    queryWithParams (pgNewQueries "blocks") qC3root = (pgNewQueries "blocks").queryQuery :=
  ⟨⟨rfl, rfl⟩, pfx_boundary tblC3 qC3 rfl rfl, by decide, by decide, by decide, by decide,
    by decide⟩

/-- C4 counterexample: the postgres constructor performs no connectivity
probe — with an environment whose open succeeds but whose database is
unreachable (ping would fail), `Create` still returns a usable datastore
instead of an error. -/
theorem pg_create_skips_probe :
    envC4.pingErr = some "connection refused" ∧
    pgCreate "blocks" envC4 = .ok (pgNewQueries "blocks") :=
  ⟨rfl, rfl⟩

/-- C4 (amended): the sqlite constructor fails fast — an open failure or a
ping (connectivity-probe) failure each yield an error and no datastore; the
postgres constructor returns an error when the open itself fails, but
performs no connectivity probe: whenever the open succeeds it returns a
datastore regardless of the database being reachable. -/
theorem create_fail_fast (tbl : String) (opts : SqliteOptions) (e : String)
    (p x : Option String) (hkey : opts.key.length = 0 ∨ opts.key.length = 32) :
    pgCreate tbl { openErr := some e, pingErr := p, execErr := x } = .error e ∧
    pgCreate tbl { openErr := none, pingErr := p, execErr := x }
      = .ok (pgNewQueries (if tbl = "" then "blocks" else tbl)) ∧
    sqliteCreate opts tbl { openErr := some e, pingErr := p, execErr := x }
      = .error (wrapErr "failed to open database" e) ∧
    sqliteCreate opts tbl { openErr := none, pingErr := some e, execErr := x }
      = .error (wrapErr "failed to ping database" e) := by
  have hk : ¬(opts.key.length ≠ 0 ∧ opts.key.length ≠ 32) := by
    rcases hkey with h | h <;> simp [h]
  refine ⟨rfl, rfl, ?_, ?_⟩ <;>
    · unfold sqliteCreate
      rw [if_neg hk]

theorem create_fail_fast_witness :
    (([] : Bytes).length = 0 ∨ ([] : Bytes).length = 32) ∧
    (pgCreate "blocks" { openErr := some "boom", pingErr := none, execErr := none }
        = .error "boom" ∧
      pgCreate "blocks" { openErr := none, pingErr := none, execErr := none }
        = .ok (pgNewQueries (if ("blocks" : String) = "" then "blocks" else "blocks")) ∧
      sqliteCreate ⟨[], false⟩ "blocks"
          { openErr := some "boom", pingErr := none, execErr := none }
        = .error (wrapErr "failed to open database" "boom") ∧
      sqliteCreate ⟨[], false⟩ "blocks"
          { openErr := none, pingErr := some "boom", execErr := none }
        = .error (wrapErr "failed to ping database" "boom")) :=
  ⟨Or.inl rfl, create_fail_fast "blocks" ⟨[], false⟩ "boom" none none (Or.inl rfl)⟩

end SqlDs
